import Mathlib

/-
Verification of the hyt development-session orchestrator.

The definitions below are a shallow embedding of the TypeScript sources:
  - src/commands/dev.ts   (devCommand, onFileChange handler, cleanup, copyJarToMods)
  - src/commands/build.ts (buildCommand JAR selection)
  - src/utils/server.ts   (launchHytaleServer, stopHytaleServer)
Asynchronous behaviour (timers, the single-threaded event loop, process
exit notification) is embedded as explicit discrete-event state passing.
-/

/- ============================================================
   Part 1: artifact selection.
   dev.ts copyJarToMods and build.ts both select the artifact by
     files.find(f => f.endsWith(".jar") && !f.includes("-sources"))
   over the readdir listing of the build output directory.
   JS strings are embedded through their character sequences.
   ============================================================ -/

/-- Embedding of the JS expression f.endsWith(pat): pat is a suffix of f. -/
def strEndsWith (s pat : String) : Bool :=
  pat.toList.isSuffixOf s.toList

/-- Helper for strIncludes: pat occurs as a contiguous run inside the list. -/
def listHasRun (pat : List Char) : List Char → Bool
  | [] => pat.isEmpty
  | c :: rest => pat.isPrefixOf (c :: rest) || listHasRun pat rest

/-- Embedding of the JS expression f.includes(pat): pat occurs anywhere in f. -/
def strIncludes (s pat : String) : Bool :=
  listHasRun pat.toList s.toList

/-- The artifact eligibility test of dev.ts line 419 and build.ts line 37:
the name ends in ".jar" and does not contain "-sources" anywhere. -/
def isEligibleJar (f : String) : Bool :=
  strEndsWith f ".jar" && !(strIncludes f "-sources")

/-- The JAR selection of copyJarToMods (dev.ts line 419) and buildCommand
(build.ts line 37): the first eligible name in the directory listing,
in listing order; modification times are never consulted. -/
def selectJar (files : List String) : Option String :=
  files.find? isEligibleJar

/-- Outcome of copyJarToMods (dev.ts lines 412 to 444) as a function of the
build-output listing: the selected JAR name on success, and the error thrown
at line 422 when no eligible candidate exists. -/
def copyJarToMods (files : List String) : Except String String :=
  match selectJar files with
  | some j => Except.ok j
  | none => Except.error "JAR file not found in build output"

/-- Modelled from the spec (section 3, Artifact), for comparison with the
code selection: among eligible candidates, pick the one with the most recent
modification time, breaking ties by the lexicographically last name.
A listing entry is a pair of a file name and its modification time. -/
def specSelectArtifact (listing : List (String × Nat)) : Option String :=
  (listing.filter (fun p => isEligibleJar p.1)).foldl
    (fun acc p =>
      match acc with
      | none => some p
      | some q => if q.2 < p.2 || (q.2 == p.2 && q.1 < p.1) then some p else some q)
    none |>.map Prod.fst

/- ============================================================
   Theorems for C1 and C10.
   ============================================================ -/

/-- C1 counterexample: a listing of two eligible artifacts where the first
listed name has the older modification time. The policy claimed by the
spec selects the newer artifact a.jar, but the code selection
(files.find on the listing) returns the first listed name b.jar,
ignoring modification times entirely. -/
theorem C1_select_counterexample :
    specSelectArtifact [("b.jar", 0), ("a.jar", 1)] = some "a.jar" ∧
    selectJar ["b.jar", "a.jar"] = some "b.jar" := by
  constructor <;> decide

/-- C1 amended: with at least one eligible candidate in the listing, the
code selects the first eligible name in listing order: the listing splits
as pre ++ g :: post with every name in pre ineligible and g the selected,
eligible artifact. Modification times play no role: selectJar consumes
only the name list. -/
theorem C1_selectJar_first_eligible (files : List String) (f : String)
    (hf : f ∈ files) (he : isEligibleJar f = true) :
    ∃ pre g post, files = pre ++ g :: post ∧ selectJar files = some g ∧
      isEligibleJar g = true ∧ ∀ x ∈ pre, isEligibleJar x = false := by
  induction files with
  | nil => cases hf
  | cons x xs ih =>
    by_cases hx : isEligibleJar x = true
    · exact ⟨[], x, xs, rfl, by simp [selectJar, List.find?_cons_of_pos _ hx], hx, by simp⟩
    · have hx' : isEligibleJar x = false := by simpa using hx
      have hfxs : f ∈ xs := by
        rcases List.mem_cons.mp hf with h | h
        · exact absurd (h ▸ he) hx
        · exact h
      obtain ⟨pre, g, post, hsplit, hsel, hg, hpre⟩ := ih hfxs
      refine ⟨x :: pre, g, post, by simp [hsplit], ?_, hg, ?_⟩
      · simpa [selectJar, List.find?_cons_of_neg _ hx] using hsel
      · intro y hy
        rcases List.mem_cons.mp hy with h | h
        · exact h ▸ hx'
        · exact hpre y h

/-- C1 witness: the amended selection theorem applied to a concrete listing
with an ineligible name ahead of the eligible one. -/
theorem C1_selectJar_first_eligible_witness :
    "plugin.jar" ∈ ["readme.txt", "plugin.jar"] ∧
    isEligibleJar "plugin.jar" = true ∧
    ∃ pre g post, ["readme.txt", "plugin.jar"] = pre ++ g :: post ∧
      selectJar ["readme.txt", "plugin.jar"] = some g ∧
      isEligibleJar g = true ∧ ∀ x ∈ pre, isEligibleJar x = false :=
  ⟨by decide, by decide,
    C1_selectJar_first_eligible ["readme.txt", "plugin.jar"] "plugin.jar"
      (by decide) (by decide)⟩

/-- C10: the eligibility filter rejects any name containing "-sources"
anywhere, not only as a suffix before ".jar"; hence if every ".jar" name
in the listing contains "-sources" somewhere, selection finds nothing and
copyJarToMods fails with the error of dev.ts line 422, even when such a
file is the only .jar present. -/
theorem C10_sources_filter_excludes (files : List String)
    (h : ∀ f ∈ files, strEndsWith f ".jar" = true → strIncludes f "-sources" = true) :
    selectJar files = none ∧
    copyJarToMods files = Except.error "JAR file not found in build output" := by
  have hnone : selectJar files = none := by
    rw [selectJar, List.find?_eq_none]
    intro f hf
    have hif := h f hf
    cases hE : strEndsWith f ".jar" <;> cases hI : strIncludes f "-sources" <;>
      simp_all [isEligibleJar]
  exact ⟨hnone, by simp [copyJarToMods, hnone]⟩

/-- C10 witness: a listing whose only .jar has "-sources" mid-name, not as
a suffix before ".jar"; selection returns nothing and publication fails. -/
theorem C10_sources_filter_excludes_witness :
    selectJar ["plugin-sources-dev.jar", "readme.txt"] = none ∧
    copyJarToMods ["plugin-sources-dev.jar", "readme.txt"] =
      Except.error "JAR file not found in build output" :=
  C10_sources_filter_excludes ["plugin-sources-dev.jar", "readme.txt"] (by decide)

/- ============================================================
   Part 2: the watch-mode debounce loop of dev.ts lines 322 to 360.
   The onFileChange handler runs on a single-threaded event loop:
     if (isRebuilding) return;                       -- event dropped
     if (rebuildTimeout) clearTimeout(rebuildTimeout);
     rebuildTimeout = setTimeout(callback, debounceMs);
   and the timer callback sets isRebuilding = true, runs build + publish,
   and resets isRebuilding = false in a finally block.
   The embedding passes time explicitly: d is the debounce window,
   B the duration of one build + publish sequence, and bOk the outcome
   oracle giving the success of the k-th rebuild (runGradleBuild result).
   ============================================================ -/

/-- State of the watch loop. inFlight records the start time of a rebuild
whose build + publish sequence has not yet completed (isRebuilding is the
flag derived from it); rebuildTimeout records the deadline of the armed,
not yet fired, debounce timer; rebuilds records each executed rebuild as
a pair of its start time and its build outcome. -/
structure DevWatchState where
  inFlight : Option Nat
  rebuildTimeout : Option Nat
  rebuilds : List (Nat × Bool)
  deriving DecidableEq, Repr

/-- The module-level isRebuilding flag of dev.ts line 226 at time now:
true exactly while a fired rebuild has not yet reached its finally block. -/
def isRebuilding (B now : Nat) (s : DevWatchState) : Bool :=
  match s.inFlight with
  | some st => decide (now < st + B)
  | none => false

/-- First phase of letting time pass until now: the finally block of
dev.ts lines 355 to 357 clears isRebuilding once the in-flight rebuild has
run for its duration B. -/
def completeInFlight (B now : Nat) (s : DevWatchState) : DevWatchState :=
  match s.inFlight with
  | some st => if st + B ≤ now then { s with inFlight := none } else s
  | none => s

/-- Second phase of letting time pass until now: if the armed timer
deadline has passed, its callback (dev.ts lines 335 to 358) fires: it
records the rebuild, with the outcome the oracle assigns to this rebuild
index, and holds isRebuilding until start + B. The fired timer handle is
spent and cannot fire again. -/
def fireDueTimer (bOk : Nat → Bool) (B now : Nat) (s : DevWatchState) : DevWatchState :=
  match s.rebuildTimeout with
  | some dl =>
      if dl ≤ now then
        { inFlight := if now < dl + B then some dl else none,
          rebuildTimeout := none,
          rebuilds := s.rebuilds ++ [(dl, bOk s.rebuilds.length)] }
      else s
  | none => s

/-- Advance the event loop to time now: complete a finished in-flight
rebuild, then fire a due timer. -/
def advanceTime (bOk : Nat → Bool) (B now : Nat) (s : DevWatchState) : DevWatchState :=
  fireDueTimer bOk B now (completeInFlight B now s)

/-- The onFileChange handler of dev.ts lines 323 to 359 for an event at
time now: while isRebuilding the event is dropped with no timer change;
otherwise any armed timer is cleared and a fresh one armed for now + d. -/
def onFileChange (d B now : Nat) (s : DevWatchState) : DevWatchState :=
  if isRebuilding B now s then s
  else { s with rebuildTimeout := some (now + d) }

/-- One change event at time t: the loop first advances to t, then runs
the handler. -/
def stepEvent (bOk : Nat → Bool) (d B : Nat) (s : DevWatchState) (t : Nat) : DevWatchState :=
  onFileChange d B t (advanceTime bOk B t s)

/-- A run of the watch loop over a time-ordered list of change events. -/
def runEvents (bOk : Nat → Bool) (d B : Nat) (s : DevWatchState) (ts : List Nat) : DevWatchState :=
  ts.foldl (stepEvent bOk d B) s

/-- Let all remaining time pass with no further events: a still-armed timer
fires and its rebuild runs to completion. -/
def flushTimer (bOk : Nat → Bool) (s : DevWatchState) : DevWatchState :=
  match s.rebuildTimeout with
  | some dl =>
      { inFlight := none, rebuildTimeout := none,
        rebuilds := s.rebuilds ++ [(dl, bOk s.rebuilds.length)] }
  | none => { s with inFlight := none }

/-- The watch loop state when watching starts: no rebuild in flight,
no armed timer, no rebuild executed yet. -/
def initWatchState : DevWatchState := ⟨none, none, []⟩

/-- During a burst, an armed timer is always pushed back: processing the
remaining events of a burst from a state with an armed timer keeps exactly
that shape and leaves the deadline at last event + d. -/
theorem runEvents_burst_armed (bOk : Nat → Bool) (d B : Nat) :
    ∀ (ts : List Nat) (t : Nat),
      List.Chain' (fun a b => a ≤ b ∧ b < a + d) (t :: ts) →
      runEvents bOk d B ⟨none, some (t + d), []⟩ ts =
        ⟨none, some ((t :: ts).getLast (List.cons_ne_nil t ts) + d), []⟩ := by
  intro ts
  induction ts with
  | nil => intro t _; simp [runEvents]
  | cons t' ts' ih =>
    intro t hchain
    rw [List.chain'_cons] at hchain
    obtain ⟨⟨hle, hlt⟩, hchain'⟩ := hchain
    have hstep : stepEvent bOk d B ⟨none, some (t + d), []⟩ t' =
        ⟨none, some (t' + d), []⟩ := by
      simp [stepEvent, advanceTime, completeInFlight, fireDueTimer, onFileChange,
        isRebuilding, Nat.not_le.mpr hlt]
    rw [runEvents, List.foldl_cons, hstep]
    have := ih t' hchain'
    rw [runEvents] at this
    rw [this, List.getLast_cons (List.cons_ne_nil t' ts')]

/-- C2: for a burst of one or more change events, each strictly less than
the debounce window d after the previous one, starting with no rebuild in
flight, exactly one rebuild sequence executes, and it begins d after the
final event of the burst. -/
theorem C2_debounce_burst_single_rebuild (bOk : Nat → Bool) (d B : Nat)
    (t0 : Nat) (ts : List Nat)
    (hchain : List.Chain' (fun a b => a ≤ b ∧ b < a + d) (t0 :: ts)) :
    (flushTimer bOk (runEvents bOk d B initWatchState (t0 :: ts))).rebuilds =
      [((t0 :: ts).getLast (List.cons_ne_nil t0 ts) + d, bOk 0)] := by
  have hstep0 : stepEvent bOk d B initWatchState t0 = ⟨none, some (t0 + d), []⟩ := by
    simp [stepEvent, advanceTime, completeInFlight, fireDueTimer, onFileChange,
      isRebuilding, initWatchState]
  rw [runEvents, List.foldl_cons, hstep0]
  have := runEvents_burst_armed bOk d B ts t0 hchain
  rw [runEvents] at this
  rw [this]
  simp [flushTimer]

/-- C2 witness: window 5, build duration 2, events at 0, 3, 6 (gaps 3 and 3,
both below 5): one rebuild runs, starting at 6 + 5 = 11. -/
theorem C2_debounce_burst_single_rebuild_witness :
    (flushTimer (fun _ => true)
      (runEvents (fun _ => true) 5 2 initWatchState [0, 3, 6])).rebuilds =
      [(11, true)] := by
  have h := C2_debounce_burst_single_rebuild (fun _ => true) 5 2 0 [3, 6]
    (by simp [List.chain'_cons])
  simpa using h

/-- The list of rebuild start times in a watch state. -/
def rebuildStarts (s : DevWatchState) : List Nat :=
  s.rebuilds.map Prod.fst

/-- Invariant of the watch loop at time now: executed rebuilds are
separated by at least the build duration B; an in-flight rebuild is the
most recent recorded one; an armed timer deadline lies at least B past the
most recent rebuild start; and with nothing in flight the most recent
rebuild has finished by now. -/
def WatchInv (B now : Nat) (s : DevWatchState) : Prop :=
  List.Chain' (fun a b => a + B ≤ b) (rebuildStarts s) ∧
  (∀ st, s.inFlight = some st → (rebuildStarts s).getLast? = some st) ∧
  (∀ dl, s.rebuildTimeout = some dl →
    ∀ st, (rebuildStarts s).getLast? = some st → st + B ≤ dl) ∧
  (s.inFlight = none →
    ∀ st, (rebuildStarts s).getLast? = some st → st + B ≤ now)

/-- Completing a finished in-flight rebuild preserves the invariant,
for any later time. -/
theorem completeInFlight_inv (B now t : Nat) (s : DevWatchState)
    (hle : now ≤ t) (h : WatchInv B now s) :
    WatchInv B t (completeInFlight B t s) := by
  obtain ⟨h1, h2, h3, h4⟩ := h
  cases hif : s.inFlight with
  | none =>
    simp only [completeInFlight, hif]
    exact ⟨h1, h2, h3, fun _ st hst => le_trans (h4 hif st hst) hle⟩
  | some st =>
    simp only [completeInFlight, hif]
    by_cases hfin : st + B ≤ t
    · rw [if_pos hfin]
      refine ⟨h1, ?_, h3, ?_⟩
      · intro st' hst'
        simp at hst'
      · intro _ st' hst'
        have hst'' : (rebuildStarts s).getLast? = some st' := hst'
        have hlast := h2 st hif
        rw [hlast] at hst''
        injection hst'' with he
        omega
    · rw [if_neg hfin]
      refine ⟨h1, h2, h3, ?_⟩
      intro hnone
      rw [hif] at hnone
      cases hnone

/-- Firing a due timer preserves the invariant. -/
theorem fireDueTimer_inv (bOk : Nat → Bool) (B t : Nat) (s : DevWatchState)
    (h : WatchInv B t s) : WatchInv B t (fireDueTimer bOk B t s) := by
  obtain ⟨h1, h2, h3, h4⟩ := h
  cases htm : s.rebuildTimeout with
  | none =>
    simp only [fireDueTimer, htm]
    exact ⟨h1, h2, h3, h4⟩
  | some dl =>
    simp only [fireDueTimer, htm]
    by_cases hfire : dl ≤ t
    · rw [if_pos hfire]
      have hmap : (s.rebuilds ++ [(dl, bOk s.rebuilds.length)]).map Prod.fst
          = rebuildStarts s ++ [dl] := by
        rw [rebuildStarts, List.map_append]
        rfl
      have hlastnew : ((s.rebuilds ++ [(dl, bOk s.rebuilds.length)]).map Prod.fst).getLast?
          = some dl := by
        rw [hmap]
        exact List.getLast?_append_cons (rebuildStarts s) dl []
      refine ⟨?_, ?_, ?_, ?_⟩
      · show List.Chain' _ ((s.rebuilds ++ [(dl, bOk s.rebuilds.length)]).map Prod.fst)
        rw [hmap, List.chain'_append]
        refine ⟨h1, List.chain'_singleton dl, ?_⟩
        intro x hx y hy
        simp only [List.head?_cons, Option.mem_def, Option.some.injEq] at hy
        subst hy
        exact h3 dl htm x hx
      · intro st hst
        by_cases hfb : t < dl + B
        · have hst' : some dl = some st := by
            have : (if t < dl + B then some dl else none) = some st := hst
            rwa [if_pos hfb] at this
          injection hst' with he
          subst he
          exact hlastnew
        · have : (if t < dl + B then some dl else none) = some st := hst
          rw [if_neg hfb] at this
          cases this
      · intro dl' hdl'
        have : (none : Option Nat) = some dl' := hdl'
        cases this
      · intro hno st hst
        have hst' : ((s.rebuilds ++ [(dl, bOk s.rebuilds.length)]).map Prod.fst).getLast?
            = some st := hst
        rw [hlastnew] at hst'
        injection hst' with he
        by_cases hfb : t < dl + B
        · exfalso
          have hno' : (if t < dl + B then some dl else none) = (none : Option Nat) := hno
          rw [if_pos hfb] at hno'
          cases hno'
        · omega
    · rw [if_neg hfire]
      exact ⟨h1, h2, h3, h4⟩

/-- The change handler preserves the invariant. -/
theorem onFileChange_inv (d B t : Nat) (s : DevWatchState)
    (h : WatchInv B t s) : WatchInv B t (onFileChange d B t s) := by
  obtain ⟨h1, h2, h3, h4⟩ := h
  rw [onFileChange]
  by_cases hr : isRebuilding B t s = true
  · rw [if_pos hr]
    exact ⟨h1, h2, h3, h4⟩
  · rw [if_neg hr]
    refine ⟨h1, h2, ?_, h4⟩
    intro dl hdl st hst
    have hdl' : some (t + d) = some dl := hdl
    injection hdl' with hdl''
    subst hdl''
    have hst' : (rebuildStarts s).getLast? = some st := hst
    cases hif : s.inFlight with
    | some st0 =>
      simp only [isRebuilding, hif, decide_eq_true_eq] at hr
      have hlast := h2 st0 hif
      rw [hlast] at hst'
      injection hst' with he
      omega
    | none =>
      have := h4 hif st hst'
      omega

/-- One change event preserves the invariant, for any later time. -/
theorem stepEvent_inv (bOk : Nat → Bool) (d B now t : Nat) (s : DevWatchState)
    (hle : now ≤ t) (h : WatchInv B now s) :
    WatchInv B t (stepEvent bOk d B s t) :=
  onFileChange_inv d B t _
    (fireDueTimer_inv bOk B t _ (completeInFlight_inv B now t s hle h))

/-- Processing a time-ordered event list preserves the invariant up to the
time of the last event. -/
theorem runEvents_inv (bOk : Nat → Bool) (d B : Nat) :
    ∀ (ts : List Nat) (now : Nat) (s : DevWatchState),
      WatchInv B now s → List.Chain' (· ≤ ·) (now :: ts) →
      WatchInv B ((now :: ts).getLast (List.cons_ne_nil now ts))
        (runEvents bOk d B s ts) := by
  intro ts
  induction ts with
  | nil =>
    intro now s h _
    simpa [runEvents] using h
  | cons t ts' ih =>
    intro now s h hchain
    rw [List.chain'_cons] at hchain
    obtain ⟨hle, hchain'⟩ := hchain
    rw [runEvents, List.foldl_cons]
    have hstep := stepEvent_inv bOk d B now t s hle h
    have hrec := ih t (stepEvent bOk d B s t) hstep hchain'
    rw [runEvents] at hrec
    rw [List.getLast_cons (List.cons_ne_nil t ts')]
    exact hrec

/-- Flushing a still-armed timer keeps the rebuild starts separated. -/
theorem flushTimer_chain (bOk : Nat → Bool) (B : Nat) (s : DevWatchState)
    (h1 : List.Chain' (fun a b => a + B ≤ b) (rebuildStarts s))
    (h3 : ∀ dl, s.rebuildTimeout = some dl →
      ∀ st, (rebuildStarts s).getLast? = some st → st + B ≤ dl) :
    List.Chain' (fun a b => a + B ≤ b) (rebuildStarts (flushTimer bOk s)) := by
  cases htm : s.rebuildTimeout with
  | none =>
    simp only [flushTimer, htm]
    exact h1
  | some dl =>
    simp only [flushTimer, htm]
    show List.Chain' _ ((s.rebuilds ++ [(dl, bOk s.rebuilds.length)]).map Prod.fst)
    rw [List.map_append]
    rw [show (([(dl, bOk s.rebuilds.length)]).map Prod.fst) = [dl] from rfl]
    rw [List.chain'_append]
    refine ⟨h1, List.chain'_singleton dl, ?_⟩
    intro x hx y hy
    simp only [List.head?_cons, Option.mem_def, Option.some.injEq] at hy
    subst hy
    exact h3 dl htm x hx

/-- C3: while a rebuild is in flight every change event is dropped with the
state, including the timer, fully unchanged; and along any time-ordered run
of change events, consecutive rebuild starts are at least the build + publish
duration B apart, so no rebuild sequence starts while another is in flight.
The flag encoded by isRebuilding is set at timer firing and cleared exactly
when the build + publish sequence completes, for success and failure alike:
the state evolution never consults the outcome oracle bOk. -/
theorem C3_inflight_drop_and_no_overlap :
    (∀ d B t s, isRebuilding B t s = true → onFileChange d B t s = s) ∧
    (∀ (bOk : Nat → Bool) (d B : Nat) (ts : List Nat),
      List.Chain' (· ≤ ·) ts →
      List.Chain' (fun a b => a + B ≤ b)
        (rebuildStarts (flushTimer bOk (runEvents bOk d B initWatchState ts)))) := by
  constructor
  · intro d B t s h
    rw [onFileChange, if_pos h]
  · intro bOk d B ts hchain
    cases ts with
    | nil =>
      simp [runEvents, flushTimer, initWatchState, rebuildStarts]
    | cons t0 ts' =>
      have hinv0 : WatchInv B t0 initWatchState := by
        refine ⟨List.chain'_nil, ?_, ?_, ?_⟩ <;> simp [initWatchState, rebuildStarts]
      have hchain2 : List.Chain' (· ≤ ·) (t0 :: t0 :: ts') :=
        List.chain'_cons.mpr ⟨le_refl t0, hchain⟩
      have hinv := runEvents_inv bOk d B (t0 :: ts') t0 initWatchState hinv0 hchain2
      exact flushTimer_chain bOk B _ hinv.1 hinv.2.2.1

/-- C3 witness: a change event at time 3 during a rebuild that started at 2
with duration 5 is dropped unchanged, and the run over events 0, 1, 9 with
window 2 and duration 3 yields rebuild starts separated by at least 3. -/
theorem C3_inflight_drop_and_no_overlap_witness :
    onFileChange 1 5 3 ⟨some 2, none, [(2, true)]⟩ = ⟨some 2, none, [(2, true)]⟩ ∧
    List.Chain' (fun a b => a + 3 ≤ b)
      (rebuildStarts (flushTimer (fun _ => true)
        (runEvents (fun _ => true) 2 3 initWatchState [0, 1, 9]))) :=
  ⟨C3_inflight_drop_and_no_overlap.1 1 5 3 ⟨some 2, none, [(2, true)]⟩ (by decide),
   C3_inflight_drop_and_no_overlap.2 (fun _ => true) 2 3 [0, 1, 9]
     (by simp [List.chain'_cons])⟩

/- ============================================================
   Part 3: the process supervisor, server.ts. The repository carries two
   revisions of the file; the operative one (the revision paired with the
   dev.ts embedded above, which calls launchHytaleServer without await) has
   a synchronous, void-returning launchHytaleServer, while stopHytaleServer
   is textually identical in both revisions.
   stopHytaleServer (operative revision lines 60 to 88):
     if (!serverProcess) return;
     try {
       if (serverProcess.stdin) serverProcess.stdin.write("stop\n");
       const timeout = setTimeout(() => {
         if (serverProcess && !serverProcess.killed) serverProcess.kill("SIGTERM");
       }, 10000);
       await serverProcess;
       clearTimeout(timeout); serverProcess = null;
     } catch {
       if (serverProcess && !serverProcess.killed) serverProcess.kill("SIGKILL");
       serverProcess = null;
     }
   The launch registers an exit handler that also nulls serverProcess when
   the process exits. The embedding runs this control flow against an
   environment describing the supervised process: whether the stdin write
   throws, when (if ever) the process exits of its own accord, and whether
   it dies promptly on SIGTERM. Node marks a process killed once a signal
   was delivered through kill, so after the grace timer fired, the catch
   branch never sends SIGKILL.
   ============================================================ -/

/-- Observable actions of the supervisor, in execution order. -/
inductive SupAction where
  | writeStop
  | sigterm
  | sigkill
  | clearHandle
  | spawn
  | ret
  deriving DecidableEq, Repr

/-- Behaviour of the supervised process during a stop call. exitTime is
measured from the start of the stop call; none means the process never
exits of its own accord. -/
structure StopEnv where
  writeFails : Bool
  exitTime : Option Nat
  diesOnTerm : Bool
  deriving DecidableEq, Repr

/-- Result of one stopHytaleServer call: the ordered actions performed,
whether the returned promise ever settles, whether the call rejects to its
caller, and whether a supervised process is still attached afterwards. -/
structure StopResult where
  actions : List SupAction
  resolves : Bool
  raises : Bool
  attachedAfter : Bool
  deriving DecidableEq, Repr

/-- stopHytaleServer (server.ts lines 57 to 85) under environment env with
grace period grace. Paths, traced from the code:
no handle: early return at line 59.
write throws: the exception jumps to the catch before the grace timer is
armed; the handle is attached and unsignalled, so SIGKILL is sent and the
handle cleared.
voluntary exit before grace: the awaited process settles, the timer is
cancelled before firing, the handle is cleared; no signal is ever sent.
exit at or after grace, or no voluntary exit but dies on SIGTERM: the
timer fires first and sends SIGTERM (the process is alive and unsignalled);
the process then exits, the settled await clears the handle; the catch, if
entered, finds the handle already detached by the exit handler or marked
killed, so SIGKILL is never sent.
no voluntary exit and SIGTERM ignored: SIGTERM is sent when the timer
fires, but await serverProcess never settles, so the call never resolves
and no further signal is ever sent. -/
def stopHytaleServer (hasHandle : Bool) (env : StopEnv) (grace : Nat) : StopResult :=
  if !hasHandle then
    ⟨[], true, false, false⟩
  else if env.writeFails then
    ⟨[SupAction.sigkill, SupAction.clearHandle], true, false, false⟩
  else
    match env.exitTime with
    | some e =>
        if e < grace then
          ⟨[SupAction.writeStop, SupAction.clearHandle], true, false, false⟩
        else
          ⟨[SupAction.writeStop, SupAction.sigterm, SupAction.clearHandle],
            true, false, false⟩
    | none =>
        if env.diesOnTerm then
          ⟨[SupAction.writeStop, SupAction.sigterm, SupAction.clearHandle],
            true, false, false⟩
        else
          ⟨[SupAction.writeStop, SupAction.sigterm], false, false, true⟩

/-- The synchronous prefix of a stopHytaleServer call: an async function
runs until its first await, so when the caller does not await it, only this
much has executed when control returns to the caller. With no handle the
body returns at once. When the stdin write throws, the catch runs with no
intervening await: the forced kill and the handle clearing complete
synchronously, and nothing remains pending. Otherwise the stop command is
written and the grace timer armed, and the body suspends at await
serverProcess: the stop sequence is still pending, the grace period not yet
begun to elapse, the handle not yet cleared. Returns the synchronously
completed actions and whether the stop sequence is still pending. -/
def stopSyncPrefix (hasHandle : Bool) (env : StopEnv) : List SupAction × Bool :=
  if !hasHandle then ([], false)
  else if env.writeFails then ([SupAction.sigkill, SupAction.clearHandle], false)
  else ([SupAction.writeStop], true)

/-- Result of one launchHytaleServer call in the operative revision:
the actions completed by the time the call returns, whether it hands a
process handle back to its caller, and whether the stop sequence of the
previous process is still pending at return. -/
structure LaunchResult where
  actions : List SupAction
  returnsHandle : Bool
  stopPending : Bool
  deriving DecidableEq, Repr

/-- launchHytaleServer of the operative server.ts revision (lines 17 to
57): a plain synchronous function returning void. With an existing handle
it calls stopHytaleServer() WITHOUT await, so only the synchronous prefix
of the stop runs; then execa spawns the new process, the module handle is
reassigned to it, and the function returns undefined at once, awaiting
neither the pending old stop nor the new process. The pending remainder of
the old stop then runs against the reassigned handle. -/
def launchHytaleServer (prevHandle : Bool) (env : StopEnv) : LaunchResult :=
  if prevHandle then
    let p := stopSyncPrefix true env
    ⟨p.1 ++ [SupAction.spawn, SupAction.ret], false, p.2⟩
  else ⟨[SupAction.spawn, SupAction.ret], false, false⟩

/-- C4 counterexample: a supervised process that ignores both the written
stop command and the subsequent SIGTERM. The grace timer fires and SIGTERM
is sent, but the await of the process never settles, so the claimed second
escalation to SIGKILL never happens: no kill signal is ever sent. -/
theorem C4_no_timed_sigkill_counterexample :
    SupAction.sigterm ∈ (stopHytaleServer true ⟨false, none, false⟩ 10).actions ∧
    SupAction.sigkill ∉ (stopHytaleServer true ⟨false, none, false⟩ 10).actions ∧
    (stopHytaleServer true ⟨false, none, false⟩ 10).resolves = false := by
  refine ⟨?_, ?_, rfl⟩ <;> decide

/-- C4 amended: stopHytaleServer on a process that exits voluntarily within
the grace period never sends a terminate or kill signal; on a process that
ignores the written stop command beyond the grace period it sends exactly
one terminate signal when the grace timer fires, and never a kill signal:
the kill escalation exists only on the exceptional path where the awaited
process settles with the handle still attached and unsignalled, as when the
stdin write fails. -/
theorem C4_stop_escalation (env : StopEnv) (grace : Nat) :
    (∀ e, env.writeFails = false → env.exitTime = some e → e < grace →
      SupAction.sigterm ∉ (stopHytaleServer true env grace).actions ∧
      SupAction.sigkill ∉ (stopHytaleServer true env grace).actions) ∧
    (env.writeFails = false →
      (env.exitTime = none ∨ ∃ e, env.exitTime = some e ∧ grace ≤ e) →
      SupAction.sigterm ∈ (stopHytaleServer true env grace).actions ∧
      SupAction.sigkill ∉ (stopHytaleServer true env grace).actions) ∧
    (env.writeFails = true →
      SupAction.sigkill ∈ (stopHytaleServer true env grace).actions) := by
  obtain ⟨wf, et, dt⟩ := env
  refine ⟨?_, ?_, ?_⟩
  · intro e hwf het hlt
    subst hwf
    cases het
    simp [stopHytaleServer, hlt]
  · intro hwf hcase
    subst hwf
    rcases hcase with hnone | ⟨e, hsome, hge⟩
    · cases hnone
      cases dt <;> simp [stopHytaleServer]
    · cases hsome
      rw [show stopHytaleServer true ⟨false, some e, dt⟩ grace =
          ⟨[SupAction.writeStop, SupAction.sigterm, SupAction.clearHandle],
            true, false, false⟩ from by simp [stopHytaleServer, Nat.not_lt.mpr hge]]
      exact ⟨by decide, by decide⟩
  · intro hwf
    subst hwf
    simp [stopHytaleServer]

/-- C4 witness: the amended escalation theorem at concrete environments:
voluntary exit at 3 with grace 10 sends no signal; a process that never
exits gets SIGTERM and no SIGKILL; a failing stdin write gets SIGKILL. -/
theorem C4_stop_escalation_witness :
    (SupAction.sigterm ∉ (stopHytaleServer true ⟨false, some 3, true⟩ 10).actions ∧
      SupAction.sigkill ∉ (stopHytaleServer true ⟨false, some 3, true⟩ 10).actions) ∧
    (SupAction.sigterm ∈ (stopHytaleServer true ⟨false, none, true⟩ 10).actions ∧
      SupAction.sigkill ∉ (stopHytaleServer true ⟨false, none, true⟩ 10).actions) ∧
    SupAction.sigkill ∈ (stopHytaleServer true ⟨true, none, true⟩ 10).actions :=
  ⟨(C4_stop_escalation ⟨false, some 3, true⟩ 10).1 3 rfl rfl (by decide),
   (C4_stop_escalation ⟨false, none, true⟩ 10).2.1 rfl (Or.inl rfl),
   (C4_stop_escalation ⟨true, none, true⟩ 10).2.2 rfl⟩

/-- C5: stopHytaleServer never rejects to its caller; whenever the call
resolves, no supervised process remains attached to the handle, whichever
path ended it; and with no handle attached the call is a no-op. -/
theorem C5_stop_never_raises_clears_handle (hasHandle : Bool) (env : StopEnv)
    (grace : Nat) :
    (stopHytaleServer hasHandle env grace).raises = false ∧
    ((stopHytaleServer hasHandle env grace).resolves = true →
      (stopHytaleServer hasHandle env grace).attachedAfter = false) ∧
    (hasHandle = false →
      stopHytaleServer hasHandle env grace = ⟨[], true, false, false⟩) := by
  obtain ⟨wf, et, dt⟩ := env
  cases hasHandle <;> cases wf <;>
    rcases et with _ | e <;> cases dt <;>
      first
      | (by_cases hlt : e < grace <;> simp [stopHytaleServer, hlt])
      | simp [stopHytaleServer]

/-- C5 witness: the guarantee at a concrete resolving stop call and at a
call with no handle attached. -/
theorem C5_stop_never_raises_clears_handle_witness :
    ((stopHytaleServer true ⟨false, some 2, false⟩ 10).raises = false ∧
      (stopHytaleServer true ⟨false, some 2, false⟩ 10).attachedAfter = false) ∧
    stopHytaleServer false ⟨false, none, false⟩ 10 = ⟨[], true, false, false⟩ :=
  ⟨⟨(C5_stop_never_raises_clears_handle true ⟨false, some 2, false⟩ 10).1,
    (C5_stop_never_raises_clears_handle true ⟨false, some 2, false⟩ 10).2.1 (by decide)⟩,
   (C5_stop_never_raises_clears_handle false ⟨false, none, false⟩ 10).2.2 rfl⟩

/-- C6 counterexample: launching over an existing supervised process that
would exit 3 units into its stop sequence, well within the grace period.
Because stopHytaleServer is invoked without await, only the stdin stop
write has executed when the new process is spawned: the trace shows spawn
and return with no handle clearing anywhere in it, the stop sequence still
pending at return, and the function hands back no handle, refuting both
halves of the claim. -/
theorem C6_launch_no_await_counterexample :
    (launchHytaleServer true ⟨false, some 3, true⟩).actions =
      [SupAction.writeStop, SupAction.spawn, SupAction.ret] ∧
    SupAction.clearHandle ∉ (launchHytaleServer true ⟨false, some 3, true⟩).actions ∧
    (launchHytaleServer true ⟨false, some 3, true⟩).stopPending = true ∧
    (launchHytaleServer true ⟨false, some 3, true⟩).returnsHandle = false := by
  refine ⟨rfl, ?_, rfl, rfl⟩
  decide

/-- C6 amended: with an existing handle, launchHytaleServer runs exactly
the synchronous prefix of the stop sequence before spawning: on the
ordinary path that prefix is the stop write alone, with the handle not yet
cleared and the stop still pending when the call returns; on the
write-failure path the forced kill and handle clearing do complete
synchronously before the spawn. The call always returns void, never a
handle, without waiting for the new process. The synchronous prefix really
is an initial segment of the corresponding full stop sequence. -/
theorem C6_launch_runs_only_sync_stop (env : StopEnv) (grace : Nat) :
    (launchHytaleServer true env).actions =
      (stopSyncPrefix true env).1 ++ [SupAction.spawn, SupAction.ret] ∧
    (launchHytaleServer true env).returnsHandle = false ∧
    (env.writeFails = false →
      (stopSyncPrefix true env).1 = [SupAction.writeStop] ∧
      SupAction.clearHandle ∉ (launchHytaleServer true env).actions ∧
      (launchHytaleServer true env).stopPending = true) ∧
    (∃ tail, (stopHytaleServer true env grace).actions =
      (stopSyncPrefix true env).1 ++ tail) := by
  obtain ⟨wf, et, dt⟩ := env
  refine ⟨by simp [launchHytaleServer], by simp [launchHytaleServer], ?_, ?_⟩
  · intro hwf
    subst hwf
    refine ⟨rfl, ?_, rfl⟩
    simp [launchHytaleServer, stopSyncPrefix]
  · cases wf
    · rcases et with _ | e
      · cases dt
        · exact ⟨[SupAction.sigterm], rfl⟩
        · exact ⟨[SupAction.sigterm, SupAction.clearHandle], rfl⟩
      · by_cases hlt : e < grace
        · exact ⟨[SupAction.clearHandle], by simp [stopHytaleServer, stopSyncPrefix, hlt]⟩
        · exact ⟨[SupAction.sigterm, SupAction.clearHandle],
            by simp [stopHytaleServer, stopSyncPrefix, hlt]⟩
    · exact ⟨[], rfl⟩

/-- C6 witness: the amended theorem at the ordinary write-succeeding
environment with a previous process exiting at 3 and grace 10. -/
theorem C6_launch_runs_only_sync_stop_witness :
    (launchHytaleServer true ⟨false, some 3, true⟩).actions =
      (stopSyncPrefix true ⟨false, some 3, true⟩).1 ++
        [SupAction.spawn, SupAction.ret] ∧
    (launchHytaleServer true ⟨false, some 3, true⟩).returnsHandle = false ∧
    ((stopSyncPrefix true ⟨false, some 3, true⟩).1 = [SupAction.writeStop] ∧
      SupAction.clearHandle ∉ (launchHytaleServer true ⟨false, some 3, true⟩).actions ∧
      (launchHytaleServer true ⟨false, some 3, true⟩).stopPending = true) ∧
    (∃ tail, (stopHytaleServer true ⟨false, some 3, true⟩ 10).actions =
      (stopSyncPrefix true ⟨false, some 3, true⟩).1 ++ tail) :=
  ⟨(C6_launch_runs_only_sync_stop ⟨false, some 3, true⟩ 10).1,
   (C6_launch_runs_only_sync_stop ⟨false, some 3, true⟩ 10).2.1,
   (C6_launch_runs_only_sync_stop ⟨false, some 3, true⟩ 10).2.2.1 rfl,
   (C6_launch_runs_only_sync_stop ⟨false, some 3, true⟩ 10).2.2.2⟩

/- ============================================================
   Part 4: the shutdown sequence of dev.ts lines 367 to 383.
     const cleanup = async () => {
       if (rebuildTimeout) clearTimeout(rebuildTimeout);
       if (watcher) { await stopWatcher(watcher); watcher = null; }
       await stopHytaleServer();
       process.exit(0);
     };
   clearTimeout on an already cleared or fired handle is a no-op, and the
   rebuildTimeout variable is never nulled, so the handle may stay stored
   in a dead state. stopHytaleServer with no attached process returns at
   once (server.ts line 59). process.exit is embedded as a terminal flag
   with its status code. The embedding takes stopHytaleServer to resolve,
   clearing the process handle, which is its behaviour on every path on
   which cleanup can complete.
   ============================================================ -/

/-- Session state seen by cleanup. The timer handle is an Option Bool:
some true is an armed live timer, some false a stored but cleared or fired
handle, none no handle stored. -/
structure SessionState where
  rebuildTimeout : Option Bool
  watcher : Bool
  server : Bool
  exited : Bool
  exitCode : Option Nat
  deriving DecidableEq, Repr

/-- Teardown operations cleanup can perform, in order. -/
inductive CleanupAction where
  | clearTimer
  | stopWatcher
  | stopServer
  | exitZero
  deriving DecidableEq, Repr

/-- The cleanup handler of dev.ts lines 367 to 383, returning the state
after the call and the actions it performed. clearTimeout runs whenever a
handle is stored, live or dead; the watcher is stopped and nulled only if
live; stopHytaleServer detaches the process when one is attached and is a
no-op otherwise; finally process.exit(0). -/
def cleanup (s : SessionState) : SessionState × List CleanupAction :=
  let p1 :=
    match s.rebuildTimeout with
    | some _ => ({ s with rebuildTimeout := some false }, [CleanupAction.clearTimer])
    | none => (s, [])
  let p2 :=
    if p1.1.watcher then
      ({ p1.1 with watcher := false }, p1.2 ++ [CleanupAction.stopWatcher])
    else p1
  let p3 :=
    if p2.1.server then
      ({ p2.1 with server := false }, p2.2 ++ [CleanupAction.stopServer])
    else p2
  ({ p3.1 with exited := true, exitCode := some 0 },
    p3.2 ++ [CleanupAction.exitZero])

/-- C7: running cleanup twice in succession gives the same end state as
running it once: terminated with exit code 0, no live timer, no live
watcher, no attached process; and the second invocation performs none of
the teardown proper: it stops no watcher and no server, re-entering only
the no-op clearTimeout of a dead handle before exiting again. The model
has no failure path: no branch of cleanup throws. -/
theorem C7_cleanup_idempotent (s : SessionState) :
    (cleanup (cleanup s).1).1 = (cleanup s).1 ∧
    (cleanup s).1.exited = true ∧
    (cleanup s).1.exitCode = some 0 ∧
    (cleanup s).1.watcher = false ∧
    (cleanup s).1.server = false ∧
    (∀ b, (cleanup s).1.rebuildTimeout = some b → b = false) ∧
    CleanupAction.stopWatcher ∉ (cleanup (cleanup s).1).2 ∧
    CleanupAction.stopServer ∉ (cleanup (cleanup s).1).2 := by
  obtain ⟨tm, w, sv, ex, ec⟩ := s
  rcases tm with _ | b <;> cases w <;> cases sv <;>
    simp [cleanup]

/- ============================================================
   Part 5: session startup, dev.ts lines 236 to 310.
   After config, Gradle wrapper and server file checks, the action body
   runs, inside a try whose catch prints the error and calls
   process.exit(1):
     if (options.initialBuild !== false) {
       await runGradleBuild(projectDir);        -- throw => GradleError, exit 1
       await copyJarToMods(projectDir, modsDir); -- throw => exit 1
     }
     launchHytaleServer(serverOptions);          -- throw => exit 1
   The copyJarToMods call is inside the initial-build conditional: with
   --no-initial-build the publish step is skipped entirely and the session
   proceeds straight to the launch.
   ============================================================ -/

/-- Steps of the startup sequence that complete successfully. -/
inductive DevAction where
  | build
  | publish (jar : String)
  | launch
  deriving DecidableEq, Repr

/-- Environment of one devCommand startup: results of the prerequisite
checks, whether the initial build is requested (options.initialBuild), the
Gradle outcome, the build-output listing seen by copyJarToMods, whether the
file copy itself succeeds, and whether the process spawn succeeds. -/
structure DevEnv where
  configOk : Bool
  wrapperOk : Bool
  filesOk : Bool
  initialBuild : Bool
  buildOk : Bool
  outputListing : List String
  copyOk : Bool
  launchOk : Bool
  deriving DecidableEq, Repr

/-- The startup sequence of devCommand (dev.ts lines 236 to 310): the
completed steps in order, and the exit status: some 1 when the catch at
line 391 runs process.exit(1), none when the session stays alive after the
launch. -/
def devRun (env : DevEnv) : List DevAction × Option Nat :=
  if !env.configOk then ([], some 1)
  else if !env.wrapperOk then ([], some 1)
  else if !env.filesOk then ([], some 1)
  else if env.initialBuild then
    if !env.buildOk then ([DevAction.build], some 1)
    else
      match selectJar env.outputListing with
      | none => ([DevAction.build], some 1)
      | some j =>
          if !env.copyOk then ([DevAction.build], some 1)
          else if env.launchOk then
            ([DevAction.build, DevAction.publish j, DevAction.launch], none)
          else ([DevAction.build, DevAction.publish j], some 1)
  else
    if env.launchOk then ([DevAction.launch], none)
    else ([], some 1)

/-- C8: an initial build failure exits the session with status 1 having
performed no step at all past the attempted build, in particular never
launching the supervised process; a failed watch-triggered rebuild, by
contrast, leaves the session alive: its catch only prints diagnostics and
its finally resets the guard, so a later change event, once the failed
rebuild has completed, arms a new timer and triggers a second rebuild. -/
theorem C8_build_failure_fatal_only_initially :
    (∀ env : DevEnv, env.configOk = true → env.wrapperOk = true →
      env.filesOk = true → env.initialBuild = true → env.buildOk = false →
      devRun env = ([DevAction.build], some 1) ∧
      DevAction.launch ∉ (devRun env).1) ∧
    (∀ (bOk : Nat → Bool) (d B t1 t2 : Nat), bOk 0 = false →
      t1 + d + B ≤ t2 →
      (flushTimer bOk (runEvents bOk d B initWatchState [t1, t2])).rebuilds =
        [(t1 + d, false), (t2 + d, bOk 1)]) := by
  constructor
  · intro env h1 h2 h3 h4 h5
    have hrun : devRun env = ([DevAction.build], some 1) := by
      simp [devRun, h1, h2, h3, h4, h5]
    exact ⟨hrun, by rw [hrun]; decide⟩
  · intro bOk d B t1 t2 hfail hsep
    have hs1 : stepEvent bOk d B initWatchState t1 = ⟨none, some (t1 + d), []⟩ := by
      simp [stepEvent, advanceTime, completeInFlight, fireDueTimer, onFileChange,
        isRebuilding, initWatchState]
    have hs2 : stepEvent bOk d B ⟨none, some (t1 + d), []⟩ t2 =
        ⟨none, some (t2 + d), [(t1 + d, bOk 0)]⟩ := by
      have hle : t1 + d ≤ t2 := by omega
      have hdone : t1 + d + B ≤ t2 := hsep
      simp [stepEvent, advanceTime, completeInFlight, fireDueTimer, onFileChange,
        isRebuilding, hle, Nat.not_lt.mpr hdone]
    rw [show runEvents bOk d B initWatchState [t1, t2] =
        stepEvent bOk d B (stepEvent bOk d B initWatchState t1) t2 from rfl]
    rw [hs1, hs2, hfail]
    simp [flushTimer]

/-- C8 witness: prerequisites satisfied and Gradle failing at startup exits
with status 1 and no launch; with window 2 and build duration 3, a first
rebuild failing at time 2 and a change event at 10 yield a second rebuild
at 12. -/
theorem C8_build_failure_fatal_only_initially_witness :
    (devRun ⟨true, true, true, true, false, ["plugin.jar"], true, true⟩ =
        ([DevAction.build], some 1) ∧
      DevAction.launch ∉
        (devRun ⟨true, true, true, true, false, ["plugin.jar"], true, true⟩).1) ∧
    (flushTimer (fun k => !(k == 0))
        (runEvents (fun k => !(k == 0)) 2 3 initWatchState [0, 10])).rebuilds =
      [(2, false), (12, true)] := by
  constructor
  · exact C8_build_failure_fatal_only_initially.1
      ⟨true, true, true, true, false, ["plugin.jar"], true, true⟩
      rfl rfl rfl rfl rfl
  · have h := C8_build_failure_fatal_only_initially.2 (fun k => !(k == 0))
      2 3 0 10 (by decide) (by decide)
    simpa using h

/-- C9 counterexample: with the initial build explicitly skipped and a
previously built eligible artifact prior.jar present in the build output
directory, the session launches the process with no publish step at all:
the copyJarToMods call sits inside the initial-build conditional, so the
claimed publication of the prior artifact never happens. -/
theorem C9_skip_build_no_publish_counterexample :
    selectJar ["prior.jar"] = some "prior.jar" ∧
    devRun ⟨true, true, true, false, true, ["prior.jar"], true, true⟩ =
      ([DevAction.launch], none) := by
  constructor <;> decide

/-- C9 amended: when the initial build is explicitly skipped and the
prerequisite checks and the spawn succeed, the session proceeds directly to
launching the supervised process and stays alive; the publish step never
runs, whether or not a prior artifact exists in the build output listing. -/
theorem C9_skip_build_launches_directly (env : DevEnv)
    (h1 : env.configOk = true) (h2 : env.wrapperOk = true)
    (h3 : env.filesOk = true) (h4 : env.initialBuild = false)
    (h5 : env.launchOk = true) :
    devRun env = ([DevAction.launch], none) := by
  simp [devRun, h1, h2, h3, h4, h5]

/-- C9 witness: the amended theorem at an environment with an eligible
prior artifact in the build output and at one with none. -/
theorem C9_skip_build_launches_directly_witness :
    devRun ⟨true, true, true, false, true, ["prior.jar"], true, true⟩ =
      ([DevAction.launch], none) ∧
    devRun ⟨true, true, true, false, true, [], true, true⟩ =
      ([DevAction.launch], none) :=
  ⟨C9_skip_build_launches_directly
      ⟨true, true, true, false, true, ["prior.jar"], true, true⟩ rfl rfl rfl rfl rfl,
   C9_skip_build_launches_directly
      ⟨true, true, true, false, true, [], true, true⟩ rfl rfl rfl rfl rfl⟩
